import Mathlib

/-!
Shallow embedding of the progressive tax engine of `src/app.py`.

Monetary amounts and rates are modelled as exact rationals (ℚ), following the
spec's numeric semantics ("decimal-equivalent precision sufficient for
currency"); the Python `float('inf')` upper bound of the top bracket is
modelled as `Option ℚ` with `none` standing for the unbounded sentinel.
Display-string fields of a breakdown row (`Tranche`, `Taux`, formatted
amounts) are represented by their numeric content, since the strings are
pure formatting of these numbers.
-/

/-- One tax bracket, `{"min": ..., "max": ..., "rate": ...}` in `app.py`;
`max = none` models `float('inf')`. -/
structure TaxBracket where
  min : ℚ
  max : Option ℚ
  rate : ℚ
deriving DecidableEq, Repr

/-- The `"2025"` table of `TAX_BRACKETS_BY_YEAR` (app.py lines 19-25). -/
def brackets2025 : List TaxBracket :=
  [⟨0, some 10064, 0⟩, ⟨10064, some 25659, 11/100⟩, ⟨25659, some 73369, 30/100⟩,
   ⟨73369, some 157806, 41/100⟩, ⟨157806, none, 45/100⟩]

/-- The `"2024"` table of `TAX_BRACKETS_BY_YEAR` (app.py lines 26-32). -/
def brackets2024 : List TaxBracket :=
  [⟨0, some 9875, 0⟩, ⟨9875, some 25175, 10/100⟩, ⟨25175, some 72000, 28/100⟩,
   ⟨72000, some 155000, 40/100⟩, ⟨155000, none, 44/100⟩]

/-- The `"2023"` table of `TAX_BRACKETS_BY_YEAR` (app.py lines 33-39). -/
def brackets2023 : List TaxBracket :=
  [⟨0, some 9325, 0⟩, ⟨9325, some 24500, 10/100⟩, ⟨24500, some 70500, 27/100⟩,
   ⟨70500, some 152000, 39/100⟩, ⟨152000, none, 43/100⟩]

/-- The `"2022"` table of `TAX_BRACKETS_BY_YEAR` (app.py lines 40-46). -/
def brackets2022 : List TaxBracket :=
  [⟨0, some 8900, 0⟩, ⟨8900, some 23850, 9/100⟩, ⟨23850, some 68500, 26/100⟩,
   ⟨68500, some 148000, 38/100⟩, ⟨148000, none, 42/100⟩]

/-- The registry dictionary `TAX_BRACKETS_BY_YEAR` (app.py lines 18-47):
a year key maps to its table; any other key is absent. -/
def TAX_BRACKETS_BY_YEAR (year : String) : Option (List TaxBracket) :=
  if year = "2025" then some brackets2025
  else if year = "2024" then some brackets2024
  else if year = "2023" then some brackets2023
  else if year = "2022" then some brackets2022
  else none

/-- `TAX_BRACKETS_BY_YEAR.get(year, TAX_BRACKETS_BY_YEAR["2025"])` — the
lenient lookup used at app.py lines 51 and 64. -/
def resolveBrackets (year : String) : List TaxBracket :=
  (TAX_BRACKETS_BY_YEAR year).getD brackets2025

/-- `min(income, bracket["max"])` where the bound may be the infinite
sentinel: capping at `none` (infinity) leaves `income` unchanged. -/
def minCap (income : ℚ) : Option ℚ → ℚ
  | none => income
  | some m => min income m

/-- The body of one loop iteration of `calculate_tax` (app.py lines 55-58):
`if income > bracket["min"]: (min(income, bracket["max"]) - bracket["min"]) * bracket["rate"]`,
else no contribution. -/
def contributionInBracket (income : ℚ) (b : TaxBracket) : ℚ :=
  if income > b.min then (minCap income b.max - b.min) * b.rate else 0

/-- The accumulation loop of `calculate_tax` over a list of brackets
(app.py lines 53-60). -/
def taxFromTable (income : ℚ) : List TaxBracket → ℚ
  | [] => 0
  | b :: rest => contributionInBracket income b + taxFromTable income rest

/-- `calculate_tax(income, year)` (app.py lines 49-60). -/
def calculate_tax (income : ℚ) (year : String) : ℚ :=
  taxFromTable income (resolveBrackets year)

/-- One row of the breakdown (app.py lines 78-84); the display strings
`Tranche` and `Taux` are carried as their numeric content
(`tranche_min`/`tranche_max` and `taux`). -/
structure BreakdownEntry where
  tranche_min : ℚ
  tranche_max : Option ℚ
  taux : ℚ
  revenu_imposable : ℚ
  montant_impot : ℚ
  tax_amount_raw : ℚ
deriving DecidableEq, Repr

/-- The entry emitted for one bracket by `get_bracket_breakdown`
(app.py lines 69-84). -/
def entryFor (income : ℚ) (b : TaxBracket) : BreakdownEntry :=
  ⟨b.min, b.max, b.rate,
   minCap income b.max - b.min,
   (minCap income b.max - b.min) * b.rate,
   (minCap income b.max - b.min) * b.rate⟩

/-- The loop of `get_bracket_breakdown` over a list of brackets
(app.py lines 66-86): an entry is appended exactly when
`income > bracket["min"]`. -/
def breakdownFromTable (income : ℚ) : List TaxBracket → List BreakdownEntry
  | [] => []
  | b :: rest =>
      if income > b.min then entryFor income b :: breakdownFromTable income rest
      else breakdownFromTable income rest

/-- `get_bracket_breakdown(income, year)` (app.py lines 62-86). -/
def get_bracket_breakdown (income : ℚ) (year : String) : List BreakdownEntry :=
  breakdownFromTable income (resolveBrackets year)

/-- `effective_rate = total_tax / income * 100` (app.py line 304). -/
def effective_rate_of (income tax : ℚ) : ℚ :=
  tax / income * 100

/-- Two-decimal display rounding, modelling the `:.2f` format used for the
effective rate (app.py line 318). -/
def roundTo2 (q : ℚ) : ℚ :=
  (⌊q * 100 + 1/2⌋ : ℚ) / 100

/-- Per-bracket sanity conditions every registry table satisfies: rate in
[0, 1], non-negative lower bound, and finite upper bound at or above the
lower bound. -/
def bracketOk (b : TaxBracket) : Bool :=
  decide (0 ≤ b.rate) && decide (b.rate ≤ 1) && decide (0 ≤ b.min) &&
    (match b.max with
     | none => true
     | some m => decide (b.min ≤ m))

/-- All brackets of a table satisfy `bracketOk`. -/
def tableOk (bs : List TaxBracket) : Bool :=
  bs.all bracketOk

/-- `a` lies strictly below `c`: `a` has a finite upper bound that is above
`a`'s own lower bound and at most `c`'s lower bound. -/
def belowOk (a c : TaxBracket) : Bool :=
  match a.max with
  | none => false
  | some m => decide (a.min < m) && decide (m ≤ c.min)

/-- Every bracket of the table lies strictly below every later bracket. -/
def pairwiseBelow : List TaxBracket → Bool
  | [] => true
  | a :: rest => rest.all (belowOk a) && pairwiseBelow rest

/-- Lower bound of the first bracket of a table (0 for an empty table). -/
def headLower : List TaxBracket → ℚ
  | [] => 0
  | b :: _ => b.min

/-- Unknown years resolve to one of the four registry tables. -/
lemma resolve_eq_cases (year : String) :
    resolveBrackets year = brackets2025 ∨ resolveBrackets year = brackets2024 ∨
    resolveBrackets year = brackets2023 ∨ resolveBrackets year = brackets2022 := by
  unfold resolveBrackets TAX_BRACKETS_BY_YEAR
  by_cases h1 : year = "2025" <;> by_cases h2 : year = "2024" <;>
    by_cases h3 : year = "2023" <;> by_cases h4 : year = "2022" <;>
    simp [h1, h2, h3, h4]

/-- Every resolved table satisfies the per-bracket sanity conditions. -/
lemma tableOk_resolve (year : String) : tableOk (resolveBrackets year) = true := by
  rcases resolve_eq_cases year with h | h | h | h <;> rw [h] <;>
    norm_num [tableOk, bracketOk, brackets2025, brackets2024, brackets2023, brackets2022,
      List.all]

/-- Every resolved table is strictly increasing with touching bounds. -/
lemma pairwiseBelow_resolve (year : String) : pairwiseBelow (resolveBrackets year) = true := by
  rcases resolve_eq_cases year with h | h | h | h <;> rw [h] <;>
    norm_num [pairwiseBelow, belowOk, brackets2025, brackets2024, brackets2023, brackets2022,
      List.all]

/-- Every resolved table starts at lower bound 0. -/
lemma headLower_resolve (year : String) : headLower (resolveBrackets year) = 0 := by
  rcases resolve_eq_cases year with h | h | h | h <;> rw [h] <;> rfl

lemma tableOk_mem {bs : List TaxBracket} {b : TaxBracket} (h : tableOk bs = true)
    (hb : b ∈ bs) : bracketOk b = true := by
  rw [tableOk, List.all_eq_true] at h
  exact h b hb

lemma bracketOk_props {b : TaxBracket} (h : bracketOk b = true) :
    0 ≤ b.rate ∧ b.rate ≤ 1 ∧ 0 ≤ b.min ∧ ∀ m, b.max = some m → b.min ≤ m := by
  rw [bracketOk] at h
  simp only [Bool.and_eq_true, decide_eq_true_eq] at h
  obtain ⟨⟨⟨h1, h2⟩, h3⟩, h4⟩ := h
  refine ⟨h1, h2, h3, fun m hm => ?_⟩
  rw [hm] at h4
  simpa using h4

lemma pairwiseBelow_cons {a : TaxBracket} {rest : List TaxBracket}
    (h : pairwiseBelow (a :: rest) = true) :
    (∀ c ∈ rest, belowOk a c = true) ∧ pairwiseBelow rest = true := by
  rw [pairwiseBelow, Bool.and_eq_true, List.all_eq_true] at h
  exact h

lemma belowOk_elim {a c : TaxBracket} (h : belowOk a c = true) :
    ∃ m, a.max = some m ∧ a.min < m ∧ m ≤ c.min := by
  rw [belowOk] at h
  cases hb : a.max with
  | none => rw [hb] at h; simp at h
  | some m =>
      rw [hb] at h
      simp only [Bool.and_eq_true, decide_eq_true_eq] at h
      exact ⟨m, rfl, h.1, h.2⟩

lemma minCap_le (x : ℚ) (o : Option ℚ) : minCap x o ≤ x := by
  cases o <;> simp [minCap]

lemma minCap_mono {x y : ℚ} (o : Option ℚ) (h : x ≤ y) : minCap x o ≤ minCap y o := by
  cases o with
  | none => simpa [minCap] using h
  | some m => exact min_le_min h le_rfl

lemma le_minCap {x b : ℚ} {o : Option ℚ} (hx : b ≤ x) (hm : ∀ m, o = some m → b ≤ m) :
    b ≤ minCap x o := by
  cases o with
  | none => simpa [minCap] using hx
  | some m => exact le_min hx (hm m rfl)

lemma contribution_of_le_min {x : ℚ} {b : TaxBracket} (h : x ≤ b.min) :
    contributionInBracket x b = 0 := by
  rw [contributionInBracket, if_neg (not_lt.mpr h)]

lemma contribution_of_max_le {b : TaxBracket} {m z : ℚ} (hm : b.max = some m)
    (hlo : b.min < m) (hz : m ≤ z) :
    contributionInBracket z b = (m - b.min) * b.rate := by
  rw [contributionInBracket, if_pos (lt_of_lt_of_le hlo hz), hm]
  simp [minCap, min_eq_right hz]

lemma contribution_nonneg {x : ℚ} {b : TaxBracket} (hr : 0 ≤ b.rate)
    (hm : ∀ m, b.max = some m → b.min ≤ m) : 0 ≤ contributionInBracket x b := by
  rw [contributionInBracket]
  split
  · have h1 : b.min ≤ minCap x b.max := le_minCap (le_of_lt ‹b.min < x›) hm
    exact mul_nonneg (by linarith) hr
  · exact le_rfl

lemma contribution_mono {x y : ℚ} {b : TaxBracket} (hr : 0 ≤ b.rate)
    (hm : ∀ m, b.max = some m → b.min ≤ m) (hxy : x ≤ y) :
    contributionInBracket x b ≤ contributionInBracket y b := by
  by_cases hx : b.min < x
  · rw [contributionInBracket, if_pos hx, contributionInBracket,
      if_pos (lt_of_lt_of_le hx hxy)]
    have h1 := minCap_mono b.max hxy
    exact mul_le_mul_of_nonneg_right (by linarith) hr
  · rw [contribution_of_le_min (not_lt.mp hx)]
    exact contribution_nonneg hr hm

lemma taxFromTable_nonneg {bs : List TaxBracket} (x : ℚ)
    (h : ∀ b ∈ bs, bracketOk b = true) : 0 ≤ taxFromTable x bs := by
  induction bs with
  | nil => exact le_rfl
  | cons a rest ih =>
      obtain ⟨h1, _, _, h4⟩ := bracketOk_props (h a (List.mem_cons_self a rest))
      have hrest := ih (fun b hb => h b (List.mem_cons_of_mem a hb))
      have hc := contribution_nonneg (x := x) h1 h4
      rw [taxFromTable]
      linarith

lemma taxFromTable_mono {bs : List TaxBracket} {x y : ℚ}
    (h : ∀ b ∈ bs, bracketOk b = true) (hxy : x ≤ y) :
    taxFromTable x bs ≤ taxFromTable y bs := by
  induction bs with
  | nil => exact le_rfl
  | cons a rest ih =>
      obtain ⟨h1, _, _, h4⟩ := bracketOk_props (h a (List.mem_cons_self a rest))
      have hrest := ih (fun b hb => h b (List.mem_cons_of_mem a hb))
      have hc := contribution_mono (b := a) h1 h4 hxy
      rw [taxFromTable, taxFromTable]
      linarith

lemma taxFromTable_eq_zero {bs : List TaxBracket} {x : ℚ} (h : ∀ b ∈ bs, x ≤ b.min) :
    taxFromTable x bs = 0 := by
  induction bs with
  | nil => rfl
  | cons a rest ih =>
      rw [taxFromTable, contribution_of_le_min (h a (List.mem_cons_self a rest)),
        ih (fun b hb => h b (List.mem_cons_of_mem a hb)), add_zero]

lemma breakdown_sum_eq_tax (x : ℚ) (bs : List TaxBracket) :
    ((breakdownFromTable x bs).map (·.tax_amount_raw)).sum = taxFromTable x bs := by
  induction bs with
  | nil => rfl
  | cons a rest ih =>
      rw [breakdownFromTable, taxFromTable, contributionInBracket]
      by_cases hx : x > a.min
      · rw [if_pos hx, if_pos hx, List.map_cons, List.sum_cons, ih]
        rfl
      · rw [if_neg hx, if_neg hx, ih, zero_add]

lemma breakdown_eq_filter_map (x : ℚ) (bs : List TaxBracket) :
    breakdownFromTable x bs = (bs.filter fun b => b.min < x).map (entryFor x) := by
  induction bs with
  | nil => rfl
  | cons a rest ih =>
      rw [breakdownFromTable, List.filter_cons]
      by_cases hx : x > a.min
      · rw [if_pos hx, if_pos (by simpa using hx), List.map_cons, ih]
      · rw [if_neg hx, if_neg (by simpa using hx), ih]

lemma taxFromTable_boundary {bs : List TaxBracket} (hp : pairwiseBelow bs = true)
    {b : TaxBracket} (hb : b ∈ bs) {u : ℚ} (hu : b.max = some u) {ε : ℚ}
    (hε : 0 < ε) (hεu : ε ≤ u - b.min) :
    taxFromTable u bs = taxFromTable (u - ε) bs + ε * b.rate := by
  induction bs with
  | nil => cases hb
  | cons a rest ih =>
      obtain ⟨hall, hrest⟩ := pairwiseBelow_cons hp
      rcases List.mem_cons.mp hb with rfl | hbrest
      · have hmin_lt_u : b.min < u := by linarith
        have hx_ge : b.min ≤ u - ε := by linarith
        have c_u : contributionInBracket u b = (u - b.min) * b.rate :=
          contribution_of_max_le hu hmin_lt_u le_rfl
        have c_x : contributionInBracket (u - ε) b = (u - ε - b.min) * b.rate := by
          by_cases hx : b.min < u - ε
          · rw [contributionInBracket, if_pos hx, hu]
            simp [minCap, min_eq_left (by linarith : u - ε ≤ u)]
          · have hxe : u - ε = b.min := le_antisymm (not_lt.mp hx) hx_ge
            rw [contribution_of_le_min (le_of_eq hxe), hxe]
            ring
        have tail_zero : ∀ z : ℚ, z ≤ u → taxFromTable z rest = 0 := by
          intro z hz
          refine taxFromTable_eq_zero (fun c hc => ?_)
          obtain ⟨m, hm, _, hmc⟩ := belowOk_elim (hall c hc)
          rw [hu] at hm
          injection hm with hm'
          linarith [hmc, hm' ▸ hmc]
        rw [taxFromTable, taxFromTable, c_u, c_x, tail_zero u le_rfl,
          tail_zero (u - ε) (by linarith)]
        ring
      · obtain ⟨m, hm, hlom, hmb⟩ := belowOk_elim (hall b hbrest)
        have hbu : b.min ≤ u - ε := by linarith
        have hmu : m ≤ u - ε := le_trans hmb hbu
        have c_a_u : contributionInBracket u a = (m - a.min) * a.rate :=
          contribution_of_max_le hm hlom (by linarith)
        have c_a_x : contributionInBracket (u - ε) a = (m - a.min) * a.rate :=
          contribution_of_max_le hm hlom hmu
        rw [taxFromTable, taxFromTable, c_a_u, c_a_x, ih hrest hbrest]
        ring

lemma taxFromTable_le_headLower {bs : List TaxBracket}
    (hok : ∀ b ∈ bs, bracketOk b = true) (hp : pairwiseBelow bs = true) (x : ℚ) :
    taxFromTable x bs ≤ max 0 (x - headLower bs) := by
  induction bs with
  | nil => exact le_max_left 0 _
  | cons a rest ih =>
      obtain ⟨hall, hrest⟩ := pairwiseBelow_cons hp
      obtain ⟨h1, h2, h3, h4⟩ := bracketOk_props (hok a (List.mem_cons_self a rest))
      have ihr := ih (fun b hb => hok b (List.mem_cons_of_mem a hb)) hrest
      rw [taxFromTable, headLower]
      by_cases hx : a.min < x
      · have hmax : max 0 (x - a.min) = x - a.min := max_eq_right (by linarith)
        rw [hmax]
        cases rest with
        | nil =>
            have hzero : taxFromTable x ([] : List TaxBracket) = 0 := rfl
            rw [hzero, add_zero, contributionInBracket, if_pos hx]
            have hge : a.min ≤ minCap x a.max := le_minCap (le_of_lt hx) h4
            have hle : minCap x a.max ≤ x := minCap_le x a.max
            have hmul : (minCap x a.max - a.min) * a.rate ≤ minCap x a.max - a.min :=
              mul_le_of_le_one_right (by linarith) h2
            linarith
        | cons c rest' =>
            obtain ⟨m, hm, hlom, hmc⟩ := belowOk_elim (hall c (List.mem_cons_self c rest'))
            rw [headLower] at ihr
            rw [contributionInBracket, if_pos hx, hm]
            have hminxm : minCap x (some m) = min x m := rfl
            rw [hminxm]
            have hge : a.min ≤ min x m := le_min (le_of_lt hx) (le_of_lt hlom)
            have hmul : (min x m - a.min) * a.rate ≤ min x m - a.min :=
              mul_le_of_le_one_right (by linarith) h2
            rcases le_total x m with hxm | hmx
            · have hmin : min x m = x := min_eq_left hxm
              have hmax2 : max 0 (x - c.min) = 0 := max_eq_left (by linarith)
              rw [hmax2] at ihr
              rw [hmin] at hmul hge ⊢
              linarith
            · have hmin : min x m = m := min_eq_right hmx
              have hmax2 : max 0 (x - c.min) ≤ x - m :=
                max_le (by linarith) (by linarith)
              rw [hmin] at hmul hge ⊢
              linarith
      · rw [contribution_of_le_min (not_lt.mp hx), zero_add]
        cases rest with
        | nil =>
            have hzero : taxFromTable x ([] : List TaxBracket) = 0 := rfl
            rw [hzero]
            exact le_max_left 0 _
        | cons c rest' =>
            obtain ⟨m, hm, hlom, hmc⟩ := belowOk_elim (hall c (List.mem_cons_self c rest'))
            rw [headLower] at ihr
            exact le_trans ihr (max_le_max le_rfl (by linarith))

/-- C1: for every year and every taxable income, the sum of the per-bracket
`tax_amount_raw` values over all entries of `get_bracket_breakdown` equals
`calculate_tax` exactly. -/
theorem claim_C1_breakdown_sum_eq_calculate_tax (x : ℚ) (year : String) :
    ((get_bracket_breakdown x year).map (·.tax_amount_raw)).sum = calculate_tax x year :=
  breakdown_sum_eq_tax x (resolveBrackets year)

/-- C2: for every bracket table and every taxable income, the tax computed by
the accumulation loop equals the sum, over the brackets whose lower bound is
strictly below the income, of `(min(income, upper) - lower) * rate`; brackets
at or above the income contribute nothing. -/
theorem claim_C2_tax_eq_filtered_sum (x : ℚ) (bs : List TaxBracket) :
    taxFromTable x bs =
      ((bs.filter fun b => b.min < x).map fun b => (minCap x b.max - b.min) * b.rate).sum := by
  induction bs with
  | nil => rfl
  | cons a rest ih =>
      rw [taxFromTable, List.filter_cons, contributionInBracket]
      by_cases hx : x > a.min
      · rw [if_pos hx, if_pos (by simpa using hx), List.map_cons, List.sum_cons, ih]
      · rw [if_neg hx, if_neg (by simpa using hx), ih, zero_add]

/-- C3: for every year, `calculate_tax` is monotonically non-decreasing in
taxable income. -/
theorem claim_C3_monotone (year : String) (x y : ℚ) (_h0 : 0 ≤ x) (hxy : x ≤ y) :
    calculate_tax x year ≤ calculate_tax y year :=
  taxFromTable_mono (fun _ hb => tableOk_mem (tableOk_resolve year) hb) hxy

theorem claim_C3_monotone_witness :
    (0:ℚ) ≤ 100 ∧ calculate_tax 100 "2024" ≤ calculate_tax 200 "2024" :=
  ⟨by norm_num, claim_C3_monotone "2024" 100 200 (by norm_num) (by norm_num)⟩

/-- C4: a year string absent from the registry never fails: `calculate_tax`
and `get_bracket_breakdown` give the same results as with the default year
"2025". -/
theorem claim_C4_unknown_year_fallback (year : String)
    (h : TAX_BRACKETS_BY_YEAR year = none) (x : ℚ) :
    calculate_tax x year = calculate_tax x "2025" ∧
    get_bracket_breakdown x year = get_bracket_breakdown x "2025" := by
  have hres : resolveBrackets year = resolveBrackets "2025" := by
    rw [resolveBrackets, h]
    rfl
  exact ⟨by rw [calculate_tax, hres]; rfl, by rw [get_bracket_breakdown, hres]; rfl⟩

theorem claim_C4_unknown_year_fallback_witness :
    calculate_tax 42000 "1999" = calculate_tax 42000 "2025" ∧
    get_bracket_breakdown 42000 "1999" = get_bracket_breakdown 42000 "2025" :=
  claim_C4_unknown_year_fallback "1999" rfl 42000

/-- C5: the breakdown has an entry for a bracket exactly when the bracket's
lower bound is strictly below the income; brackets at or above it produce no
entry, so the breakdown is the entry list of the filtered table. -/
theorem claim_C5_entry_iff_lower_lt (x : ℚ) (bs : List TaxBracket) :
    breakdownFromTable x bs = (bs.filter fun b => b.min < x).map (entryFor x) ∧
    ∀ b ∈ bs, (entryFor x b ∈ breakdownFromTable x bs ↔ b.min < x) := by
  refine ⟨breakdown_eq_filter_map x bs, fun b hb => ?_⟩
  rw [breakdown_eq_filter_map]
  constructor
  · intro hmem
    obtain ⟨b', hb', heq⟩ := List.mem_map.mp hmem
    obtain ⟨_, hb'x⟩ := List.mem_filter.mp hb'
    have hmin : b'.min = b.min := congrArg BreakdownEntry.tranche_min heq
    rw [← hmin]
    exact of_decide_eq_true hb'x
  · intro hbx
    exact List.mem_map_of_mem _ (List.mem_filter.mpr ⟨hb, decide_eq_true hbx⟩)

theorem claim_C5_entry_iff_lower_lt_witness :
    entryFor 50000 ⟨10064, some 25659, 11/100⟩ ∈ breakdownFromTable 50000 brackets2025 := by
  have h := (claim_C5_entry_iff_lower_lt 50000 brackets2025).2
    ⟨10064, some 25659, 11/100⟩ (by norm_num [brackets2025])
  exact h.mpr (by norm_num)

/-- C6: income exactly at a bracket's lower bound is not taxed in that
bracket (the loop's comparison is strict), and in particular the 2025 tax on
an income of 10064 is zero. -/
theorem claim_C6_strict_lower_bound :
    (∀ b : TaxBracket, contributionInBracket b.min b = 0) ∧
    calculate_tax 10064 "2025" = 0 := by
  refine ⟨fun b => contribution_of_le_min le_rfl, ?_⟩
  norm_num [calculate_tax, resolveBrackets, TAX_BRACKETS_BY_YEAR, brackets2025,
    taxFromTable, contributionInBracket, minCap]

/-- C7: the 2025 scenario at income 50000: per-bracket tax amounts 0,
1715.45 and 7302.30, total tax 9017.75, two-decimal effective rate 18.04,
and net income 40982.25. -/
theorem claim_C7_scenario_50000 :
    calculate_tax 50000 "2025" = 9017.75 ∧
    ((get_bracket_breakdown 50000 "2025").map (·.tax_amount_raw)) = [0, 1715.45, 7302.30] ∧
    roundTo2 (effective_rate_of 50000 (calculate_tax 50000 "2025")) = 18.04 ∧
    50000 - calculate_tax 50000 "2025" = 40982.25 := by
  have h : calculate_tax 50000 "2025" = 9017.75 := by
    norm_num [calculate_tax, resolveBrackets, TAX_BRACKETS_BY_YEAR, brackets2025,
      taxFromTable, contributionInBracket, minCap]
  refine ⟨h, ?_, ?_, ?_⟩
  · norm_num [get_bracket_breakdown, resolveBrackets, TAX_BRACKETS_BY_YEAR, brackets2025,
      breakdownFromTable, entryFor, minCap]
  · rw [h]
    norm_num [roundTo2, effective_rate_of]
  · rw [h]
    norm_num

/-- C8: tax is continuous at bracket boundaries: for every year, every
bracket with a finite upper bound `u`, and every `ε` with
`0 < ε ≤ u - lower`, the tax at `u` equals the tax at `u - ε` plus
`ε * rate`. -/
theorem claim_C8_boundary_continuity (year : String) (b : TaxBracket)
    (hb : b ∈ resolveBrackets year) (u : ℚ) (hu : b.max = some u) (ε : ℚ)
    (hε : 0 < ε) (hεu : ε ≤ u - b.min) :
    calculate_tax u year = calculate_tax (u - ε) year + ε * b.rate :=
  taxFromTable_boundary (pairwiseBelow_resolve year) hb hu hε hεu

theorem claim_C8_boundary_continuity_witness :
    calculate_tax 25659 "2025" = calculate_tax (25659 - 1) "2025" + 1 * (11/100) := by
  have hb : (⟨10064, some 25659, 11/100⟩ : TaxBracket) ∈ resolveBrackets "2025" := by
    norm_num [resolveBrackets, TAX_BRACKETS_BY_YEAR, brackets2025]
  exact claim_C8_boundary_continuity "2025" ⟨10064, some 25659, 11/100⟩ hb 25659 rfl 1
    (by norm_num) (by norm_num)

/-- C9: `calculate_tax` returns 0 for every income at or below 0, and a
non-negative number for every non-negative income. -/
theorem claim_C9_zero_and_nonneg (year : String) (x : ℚ) :
    (x ≤ 0 → calculate_tax x year = 0) ∧ (0 ≤ x → 0 ≤ calculate_tax x year) := by
  constructor
  · intro hx
    refine taxFromTable_eq_zero (fun b hb => ?_)
    obtain ⟨_, _, h3, _⟩ := bracketOk_props (tableOk_mem (tableOk_resolve year) hb)
    linarith
  · intro _
    exact taxFromTable_nonneg x (fun _ hb => tableOk_mem (tableOk_resolve year) hb)

theorem claim_C9_zero_and_nonneg_witness :
    calculate_tax 0 "2025" = 0 ∧ 0 ≤ calculate_tax 0 "2025" :=
  ⟨(claim_C9_zero_and_nonneg "2025" 0).1 le_rfl, (claim_C9_zero_and_nonneg "2025" 0).2 le_rfl⟩

/-- C10: for every year and every non-negative income, the tax never exceeds
the income, so net income is never negative. -/
theorem claim_C10_tax_le_income (year : String) (x : ℚ) (hx : 0 ≤ x) :
    calculate_tax x year ≤ x ∧ 0 ≤ x - calculate_tax x year := by
  have h := taxFromTable_le_headLower
    (fun _ hb => tableOk_mem (tableOk_resolve year) hb) (pairwiseBelow_resolve year) x
  rw [headLower_resolve year, sub_zero, max_eq_right hx] at h
  have h' : calculate_tax x year ≤ x := h
  exact ⟨h', by linarith⟩

theorem claim_C10_tax_le_income_witness :
    calculate_tax 75000 "2023" ≤ 75000 ∧ (0:ℚ) ≤ 75000 - calculate_tax 75000 "2023" :=
  claim_C10_tax_le_income "2023" 75000 (by norm_num)
